import Mathlib

/-!
Verification of the streaming chat session engine of the
`perplexity-ai-assistant` editor extension.

The embedding below is a shallow model of the TypeScript source:

* `chatProcessLines` / `chatHandleStream` embed the server-sent-event
  decoding loop of `PerplexityCustomChatProvider.handleStreamingResponse`
  (`src/chatProvider.ts`).
* `extProcessLines` / `extHandleStream` embed the decoding loop of
  `queryPerplexityAPIStream` (`src/extension.ts`).
* `handleUserMessage`, `addUserMessage`, `addAssistantMessage`,
  `ensureCurrentSession`, `startNewChat`, `clearHistory`, `selectSession`
  embed the session/turn state machine of `src/chatProvider.ts`.
* `saveChatHistory` / `loadChatHistory` embed the persistence round trip of
  `src/chatProvider.ts` across the JSON serialization boundary.

JavaScript strings are modelled as `List Char` in the stream-decoder layer
(a JS string is a sequence of code units, and the decoder only splits,
compares and concatenates them) and as Lean `String` in the session layer.
`JSON.parse` followed by the `choices?.[0]?.delta?.content` extraction is a
host primitive; the decoder definitions take it as an explicit
`parse : List Char → Option FrameJson` argument, and concrete witnesses use
`canonParse`, which recognises exactly the canonical serialisation
`mkFrame c` of a frame whose delta content is the string `c` (real
`JSON.parse` agrees with `canonParse` on every concrete string these
witnesses evaluate it at).
-/

/-- Result of `JSON.parse(data)` followed by reading
`parsed.choices?.[0]?.delta?.content`: `content = some c` when that path
holds the string `c`, `content = none` when the path is absent.  (The claims
under verification only concern frames whose delta content is a string or
absent, so non-string truthy values at the path are out of scope of this
model.) -/

structure FrameJson where
  content : Option (List Char)
deriving DecidableEq, Repr

/-- Observable state of one streaming-decoder run: `fullResponse` is the
`fullResponse` accumulator of `handleStreamingResponse`, `emitted` the
ordered contents of the `streamChunk` messages posted to the webview (resp.
the `onChunk` calls of `queryPerplexityAPIStream`), `parseCalls` the ordered
arguments passed to `JSON.parse`. -/

structure DecState where
  fullResponse : List Char
  emitted : List (List Char)
  parseCalls : List (List Char)
deriving DecidableEq, Repr

def DecState.init : DecState := ⟨[], [], []⟩

/-- `chunk.split("\n")`: splits on every newline, keeping empty segments. -/
def splitOnNl : List Char → List (List Char)
  | [] => [[]]
  | c :: rest =>
    match splitOnNl rest with
    | [] => [[]]
    | l :: ls => if c = '\n' then [] :: l :: ls else (c :: l) :: ls

/-- `s.startsWith(tag)` for JS strings. -/
def beginsWith : List Char → List Char → Bool
  | [], _ => true
  | _ :: _, [] => false
  | a :: as, b :: bs => a = b && beginsWith as bs

/-- The whitespace characters relevant to `String.prototype.trim` on the
ASCII frames handled here. -/

def isWs (c : Char) : Bool := c = ' ' || c = '\t' || c = '\n' || c = '\r'

/-- `s.trim()`: drop whitespace from both ends. -/
def trimChars (s : List Char) : List Char :=
  ((s.dropWhile isWs).reverse.dropWhile isWs).reverse

/-- `s.includes(pat)` for JS strings. -/
def containsSeq (pat : List Char) : List Char → Bool
  | [] => beginsWith pat []
  | c :: rest => beginsWith pat (c :: rest) || containsSeq pat rest

def dataTag : List Char := "data: ".toList

def doneTok : List Char := "[DONE]".toList

/-- Line loop of `handleStreamingResponse` (src/chatProvider.ts, lines
454-483) over the lines of one decoded chunk: skip blank lines, require the
`data: ` tag, stop at `[DONE]` (the `break` leaves the remaining lines
of the current chunk unprocessed), otherwise `JSON.parse` the payload and
append a truthy `choices[0].delta.content` to the response, posting it as a
`streamChunk`; a failed parse is swallowed and decoding continues. -/

def chatProcessLines (parse : List Char → Option FrameJson) :
    List (List Char) → DecState → DecState
  | [], st => st
  | line :: rest, st =>
    if trimChars line = [] then chatProcessLines parse rest st
    else if beginsWith dataTag line then
      let data := trimChars (line.drop 6)
      if data = doneTok then st
      else
        let st1 : DecState :=
          { st with parseCalls := st.parseCalls ++ [data] }
        match parse data with
        | some j =>
          match j.content with
          | some c =>
            if c ≠ [] then
              chatProcessLines parse rest
                { st1 with fullResponse := st1.fullResponse ++ c,
                           emitted := st1.emitted ++ [c] }
            else chatProcessLines parse rest st1
          | none => chatProcessLines parse rest st1
        | none => chatProcessLines parse rest st1
    else chatProcessLines parse rest st

/-- Chunk loop of `handleStreamingResponse` (src/chatProvider.ts, lines
440-484): each transport read is decoded to text and split on newlines;
there is no carry-over buffer between reads. -/

def chatHandleStream (parse : List Char → Option FrameJson)
    (chunks : List (List Char)) : DecState :=
  chunks.foldl (fun st c => chatProcessLines parse (splitOnNl c) st)
    DecState.init

/-- Line loop of `queryPerplexityAPIStream` (src/extension.ts, lines
630-646): a line is handled only when it starts with `data: ` and does not
contain `[DONE]` anywhere; the payload after the tag is `JSON.parse`d when
its trim is non-empty, and a truthy `choices[0].delta.content` is forwarded
to `onChunk`; a failed parse is swallowed. -/

def extProcessLines (parse : List Char → Option FrameJson) :
    List (List Char) → DecState → DecState
  | [], st => st
  | line :: rest, st =>
    if beginsWith dataTag line && !containsSeq doneTok line then
      let jsonStr := line.drop 6
      if trimChars jsonStr ≠ [] then
        let st1 : DecState :=
          { st with parseCalls := st.parseCalls ++ [jsonStr] }
        match parse jsonStr with
        | some j =>
          match j.content with
          | some c =>
            if c ≠ [] then
              extProcessLines parse rest { st1 with emitted := st1.emitted ++ [c] }
            else extProcessLines parse rest st1
          | none => extProcessLines parse rest st1
        | none => extProcessLines parse rest st1
      else extProcessLines parse rest st
    else extProcessLines parse rest st

/-- Chunk loop of `queryPerplexityAPIStream` (src/extension.ts, lines
616-650): each read is split on newlines with no carry-over buffer. -/

def extHandleStream (parse : List Char → Option FrameJson)
    (chunks : List (List Char)) : DecState :=
  chunks.foldl (fun st c => extProcessLines parse (splitOnNl c) st)
    DecState.init

/-- Opening text of the canonical wire serialisation of a streaming frame
(`\x7b` is `{`). -/

def framePre : List Char :=
  "\x7b\"choices\":[\x7b\"delta\":\x7b\"content\":\"".toList

/-- Closing text of the canonical wire serialisation (`\x7d` is `}`). -/
def frameSuf : List Char := "\"\x7d\x7d]\x7d".toList

/-- Canonical JSON text of a frame whose `choices[0].delta.content` is the
string `c` (for `c` free of quotes and backslashes). -/

def mkFrame (c : List Char) : List Char := framePre ++ c ++ frameSuf

/-- Restriction of the host `JSON.parse` plus content extraction to the
canonical frame texts produced by `mkFrame`: it returns the delta content of
`mkFrame c` and fails elsewhere.  Real `JSON.parse` agrees with it on every
string the concrete theorems below apply it to (each such string is either a
canonical frame or a strict fragment of one, which is not valid JSON). -/

def canonParse (s : List Char) : Option FrameJson :=
  if beginsWith framePre s then
    let rest := s.drop framePre.length
    if frameSuf.length ≤ rest.length &&
        rest.drop (rest.length - frameSuf.length) == frameSuf then
      let c := rest.take (rest.length - frameSuf.length)
      if c.any (fun ch => ch = '"' || ch = '\\') then none
      else some ⟨some c⟩
    else none
  else none

/-- A whole single-frame chunk: `data: ` tag, payload, newline. -/
def frameChunk (p : List Char) : List Char := dataTag ++ p ++ ['\n']

/-- The concrete frame used to exhibit the missing carry-over buffer: a
well-formed frame whose delta content is `"hi"`. -/

def c1Frame : List Char := frameChunk (mkFrame ('h' :: 'i' :: []))

/-- Payload-side conditions a realistic SSE frame payload satisfies: no
inner newline (frames are newline-delimited), non-empty, no surrounding
whitespace, and not the end marker itself. -/
def payloadCore (p : List Char) : Prop :=
  '\n' ∉ p ∧ p ≠ [] ∧ p.dropWhile isWs = p ∧
    p.reverse.dropWhile isWs = p.reverse ∧ p ≠ doneTok

/-- `payloadCore` plus the condition the `extension.ts` decoder needs on top:
the frame's line does not contain the end marker as a substring (its
`!line.includes` guard drops any line containing `[DONE]` anywhere). -/
def payloadSane (p : List Char) : Prop :=
  '\n' ∉ p ∧ p ≠ [] ∧ p.dropWhile isWs = p ∧
    p.reverse.dropWhile isWs = p.reverse ∧ p ≠ doneTok ∧
    containsSeq doneTok (dataTag ++ p) = false

/-- One frame of a streaming response, delivered whole in its own transport
read: a well-formed frame with delta content `c`, a frame whose payload is
not valid JSON, or the end marker `data: [DONE]`. -/

inductive FrameSpec where
  | good (p c : List Char)
  | bad (p : List Char)
  | stop
deriving DecidableEq, Repr

/-- The raw chunk delivering the frame. -/
def FrameSpec.chunk : FrameSpec → List Char
  | .good p _ => frameChunk p
  | .bad p => frameChunk p
  | .stop => frameChunk doneTok

/-- The delta a frame carries, if any. -/
def FrameSpec.delta : FrameSpec → Option (List Char)
  | .good _ c => some c
  | _ => none

/-- The payload a frame hands to `JSON.parse`, if any. -/
def FrameSpec.payload : FrameSpec → Option (List Char)
  | .good p _ => some p
  | .bad p => some p
  | .stop => none

/-- Well-formedness of a frame description relative to the parse oracle:
good frames parse to a non-empty string delta, bad frames fail to parse. -/

def FrameSpec.Ok (parse : List Char → Option FrameJson) : FrameSpec → Prop
  | .good p c => payloadCore p ∧ parse p = some ⟨some c⟩ ∧ c ≠ []
  | .bad p => payloadCore p ∧ parse p = none
  | .stop => True

/-- The extra condition the `extension.ts` decoder needs frame by frame: the
frame's line must not contain `[DONE]` as a substring, since
`queryPerplexityAPIStream` skips any line for which
`line.includes("[DONE]")` holds — even a well-formed frame whose delta
content contains `[DONE]`. -/
def FrameSpec.NoDoneSub : FrameSpec → Prop
  | .good p _ => containsSeq doneTok (dataTag ++ p) = false
  | .bad p => containsSeq doneTok (dataTag ++ p) = false
  | .stop => True

instance (p : List Char) : Decidable (payloadCore p) :=
  inferInstanceAs (Decidable (_ ∧ _ ∧ _ ∧ _ ∧ _))

instance (p : List Char) : Decidable (payloadSane p) :=
  inferInstanceAs (Decidable (_ ∧ _ ∧ _ ∧ _ ∧ _ ∧ _))

instance (parse : List Char → Option FrameJson) :
    (s : FrameSpec) → Decidable (s.Ok parse)
  | .good p c =>
    inferInstanceAs (Decidable (payloadCore p ∧ parse p = some ⟨some c⟩ ∧ c ≠ []))
  | .bad p => inferInstanceAs (Decidable (payloadCore p ∧ parse p = none))
  | .stop => inferInstanceAs (Decidable True)

instance : (s : FrameSpec) → Decidable s.NoDoneSub
  | .good p _ =>
    inferInstanceAs (Decidable (containsSeq doneTok (dataTag ++ p) = false))
  | .bad p =>
    inferInstanceAs (Decidable (containsSeq doneTok (dataTag ++ p) = false))
  | .stop => inferInstanceAs (Decidable True)

/-- Concrete list of frames exercising `c2_interleaved_frames_decoded`: a
good frame (`"It "`), a malformed frame, the `[DONE]` marker, then another
good frame. -/

def c2Specs : List FrameSpec :=
  [ .good (mkFrame ('I' :: 't' :: ' ' :: [])) ('I' :: 't' :: ' ' :: []),
    .bad ('\x7b' :: 'o' :: 'o' :: 'p' :: 's' :: []),
    .stop,
    .good (mkFrame ('o' :: 'k' :: [])) ('o' :: 'k' :: []) ]

/-- `ChatMessage` of src/chatProvider.ts; `timestamp` is the `Date` value in
milliseconds since the epoch. -/

inductive Role where
  | user
  | assistant
deriving DecidableEq, Repr

structure ChatMessage where
  role : Role
  content : String
  timestamp : Int
deriving DecidableEq, Repr

/-- `ChatSession` of src/chatProvider.ts. -/
structure ChatSession where
  id : String
  title : String
  messages : List ChatMessage
  createdAt : Int
deriving DecidableEq, Repr

/-- Mutable fields of `PerplexityCustomChatProvider` relevant to the session
state machine: `_sessions`, `_currentSessionId`, and `_abortController`
(modelled as the numeric token of the live `AbortController`, `none` when
`undefined`). -/

structure ProviderState where
  sessions : List ChatSession
  currentSessionId : Option String
  abortController : Option Nat
deriving DecidableEq, Repr

/-- In-place mutation of the first array element matching `p` (JS `find`
returns an aliased object that the source then mutates). -/

def updateFirst (p : α → Bool) (f : α → α) : List α → List α
  | [] => []
  | x :: xs => if p x then f x :: xs else x :: updateFirst p f xs

/-- `ensureCurrentSession` (src/chatProvider.ts, lines 243-253): when no
current id is set, or it references no session in the array, assign a fresh
unique id (`Date.now() + random`, supplied here as `freshId`) without
creating a session record. -/

def ensureCurrentSession (freshId : String) (st : ProviderState) : ProviderState :=
  match st.currentSessionId with
  | none => { st with currentSessionId := some freshId }
  | some cur =>
    if (st.sessions.find? (fun s => s.id == cur)).isSome then st
    else { st with currentSessionId := some freshId }

/-- Title derivation of `addUserMessage` (src/chatProvider.ts, lines 219 and
234-237): 50-character truncation plus `"..."`. -/

def titleFor (content : String) : String :=
  if content.length > 50 then (content.take 50) ++ "..." else content

/-- `session.messages.push(userMessage)` followed by the first-message
retitle (src/chatProvider.ts, lines 226-237). -/

def pushUserMessage (content : String) (now : Int) (s : ChatSession) : ChatSession :=
  if (s.messages ++ [ChatMessage.mk Role.user content now]).length == 1 then
    { s with messages := s.messages ++ [ChatMessage.mk Role.user content now],
             title := titleFor content }
  else { s with messages := s.messages ++ [ChatMessage.mk Role.user content now] }

/-- `addUserMessage` (src/chatProvider.ts, lines 211-241): ensure a current
id; if no session record exists for it, create one (title derived from the
message) and unshift it to the front; push the user message; re-derive the
title when it is the session's first message.  `now` stands for
`new Date()`. -/

def addUserMessage (freshId : String) (now : Int) (content : String)
    (st : ProviderState) : ProviderState :=
  let st1 := ensureCurrentSession freshId st
  let cur := st1.currentSessionId.getD ""
  match st1.sessions.find? (fun s => s.id == cur) with
  | none =>
    { st1 with sessions :=
        pushUserMessage content now ⟨cur, titleFor content, [], now⟩ :: st1.sessions }
  | some _ =>
    { st1 with sessions :=
        updateFirst (fun s => s.id == cur) (pushUserMessage content now) st1.sessions }

/-- `addAssistantMessage` (src/chatProvider.ts, lines 192-209): push onto
the current session; when no session record exists, log and change
nothing. -/

def addAssistantMessage (freshId : String) (now : Int) (content : String)
    (st : ProviderState) : ProviderState :=
  let st1 := ensureCurrentSession freshId st
  let cur := st1.currentSessionId.getD ""
  let g := fun (s : ChatSession) =>
    { s with messages := s.messages ++ [⟨Role.assistant, content, now⟩] }
  if (st1.sessions.find? (fun s => s.id == cur)).isSome then
    { st1 with sessions := updateFirst (fun s => s.id == cur) g st1.sessions }
  else st1

/-- `startNewChat` (src/chatProvider.ts, lines 255-262): assign a fresh
current id only; no session record is created and `_sessions` is
untouched. -/

def startNewChat (freshId : String) (st : ProviderState) : ProviderState :=
  { st with currentSessionId := some freshId }

/-- `clearHistory` (src/chatProvider.ts, lines 275-283). -/
def clearHistory (st : ProviderState) : ProviderState :=
  { st with sessions := [], currentSessionId := none }

/-- `selectSession` (src/chatProvider.ts, lines 333-339). -/
def selectSession (sessionId : String) (st : ProviderState) : ProviderState :=
  if (st.sessions.find? (fun s => s.id == sessionId)).isSome then
    { st with currentSessionId := some sessionId }
  else st

/-- Context item attached to the chat (src/chatProvider.ts `attachedContext`
entries), restricted to the fields the prompt rendering reads. -/

inductive CtxItem where
  | file (name language content : String)
  | selection (fileName : String) (startLine endLine : Nat) (content : String)
deriving DecidableEq, Repr

/-- One rendered context block (src/chatProvider.ts, lines 136-145). -/
def blockOf : CtxItem → String
  | .file name language content =>
    "File: " ++ name ++ "\n```" ++ language ++ "\n" ++ content ++ "\n```"
  | .selection fileName startLine endLine content =>
    "Selected code from " ++ fileName ++ " (lines " ++ toString startLine ++
      "-" ++ toString endLine ++ "):\n```\n" ++ content ++ "\n```"

/-- Prompt assembly of `handleUserMessage` (src/chatProvider.ts, lines
133-153): with no attached context the message is sent unchanged; otherwise
the rendered blocks are joined by blank lines under a `Context:` header,
followed by the user question. -/

def renderContext (ctx : List CtxItem) (message : String) : String :=
  if ctx.length > 0 then
    "Context:\n" ++ String.intercalate "\n\n" (ctx.map blockOf) ++
      "\n\nUser Question: " ++ message
  else message

/-- Events `handleUserMessage` posts to the webview. -/
inductive UiEvent where
  | errorEvt (msg : String)
  | showTyping
  | hideTyping
  | responseStopped
deriving DecidableEq, Repr

/-- Result of the awaited `queryPerplexityAPI` call: resolved text, an
`AbortError` rejection, or any other rejection. -/

inductive QueryOutcome where
  | success (resp : String)
  | abortError
  | failure (msg : String)
deriving DecidableEq, Repr

/-- Observable result of one `handleUserMessage` turn: final provider
state, webview events in posting order, the tokens of the aborted
controllers, and the prompt handed to the transport (`none` when no request
was issued). -/

structure TurnOutput where
  state : ProviderState
  events : List UiEvent
  aborted : List Nat
  sentPrompt : Option String
deriving DecidableEq, Repr

/-- The guard `!message.trim()` of `handleUserMessage` (line 105): the
submitted text is empty or whitespace-only, i.e. trimming leaves the empty
string. -/

def isBlank (s : String) : Bool := s.toList.all Char.isWhitespace

def apiKeyMissingMsg : String :=
  "API key not configured. Please set up your Perplexity API key."

/-- `handleUserMessage` (src/chatProvider.ts, lines 104-191).  Host effects
are parameters: `apiKey` is the credential lookup result, `outcome` the
settled transport call, `newToken` the fresh `AbortController`, `fidU`,
`fidA`, `nowU`, `nowA` the fresh ids and `Date` values drawn inside
`addUserMessage` / `addAssistantMessage`.  The flow: return on
whitespace-only input; abort any ongoing request and install a new
controller; on a missing key post one error and stop; otherwise post the
typing indicator, render the context-augmented prompt, await the transport,
and on success persist the original message and the response — on
`AbortError` post `responseStopped`, on any other rejection post one error;
the controller is cleared in `finally`. -/

def handleUserMessage (apiKey : Option String) (outcome : QueryOutcome)
    (ctx : List CtxItem) (newToken : Nat) (fidU fidA : String) (nowU nowA : Int)
    (message : String) (st : ProviderState) : TurnOutput :=
  if isBlank message then ⟨st, [], [], none⟩
  else
    let aborted := match st.abortController with
      | some t => [t]
      | none => []
    let st := { st with abortController := some newToken }
    match apiKey with
    | none =>
      ⟨{ st with abortController := none }, [.errorEvt apiKeyMissingMsg],
        aborted, none⟩
    | some _ =>
      let fullMessage := renderContext ctx message
      match outcome with
      | .success resp =>
        let st := addUserMessage fidU nowU message st
        let st := addAssistantMessage fidA nowA resp st
        ⟨{ st with abortController := none },
          [.showTyping, .hideTyping], aborted, some fullMessage⟩
      | .abortError =>
        ⟨{ st with abortController := none },
          [.showTyping, .hideTyping, .responseStopped], aborted, some fullMessage⟩
      | .failure m =>
        ⟨{ st with abortController := none },
          [.showTyping, .hideTyping, .errorEvt m], aborted, some fullMessage⟩

def countErrors (events : List UiEvent) : Nat :=
  events.countP (fun e => match e with | .errorEvt _ => true | _ => false)

def countStopped (events : List UiEvent) : Nat :=
  events.countP (fun e => match e with | .responseStopped => true | _ => false)

/-- Shape of a message after `globalState` JSON serialization: the `Date`
has collapsed to a string. -/

structure StoredMessage where
  role : Role
  content : String
  timestamp : String
deriving DecidableEq, Repr

/-- Shape of a session after JSON serialization. -/
structure StoredSession where
  id : String
  title : String
  messages : List StoredMessage
  createdAt : String
deriving DecidableEq, Repr

def serializeMessage (iso : Int → String) (m : ChatMessage) : StoredMessage :=
  ⟨m.role, m.content, iso m.timestamp⟩

def serializeSession (iso : Int → String) (s : ChatSession) : StoredSession :=
  ⟨s.id, s.title, s.messages.map (serializeMessage iso), iso s.createdAt⟩

/-- `saveChatHistory` (src/chatProvider.ts, lines 501-503): the sessions
array is handed to `globalState.update`, whose JSON boundary writes each
`Date` as its ISO-8601 string (`Date.prototype.toJSON`), modelled by the
`iso` parameter. -/

def saveChatHistory (iso : Int → String) (sessions : List ChatSession) :
    List StoredSession :=
  sessions.map (serializeSession iso)

def rehydrateMessage (parseDate : String → Int) (m : StoredMessage) : ChatMessage :=
  ⟨m.role, m.content, parseDate m.timestamp⟩

/-- `loadChatHistory` (src/chatProvider.ts, lines 505-534): map over the
saved array re-hydrating `createdAt` and every message `timestamp` with
`new Date(...)` (after the JSON round trip the stored values are strings, so
the `instanceof Date` test fails and the conversion branch applies),
modelled by the `parseDate` parameter. -/

def loadChatHistory (parseDate : String → Int) (saved : List StoredSession) :
    List ChatSession :=
  saved.map (fun s =>
    ⟨s.id, s.title, s.messages.map (rehydrateMessage parseDate), parseDate s.createdAt⟩)

/-- Concrete serialization boundary used by witnesses; the host guarantee —
`new Date(d.toJSON()).getTime() = d.getTime()` at millisecond precision — is
the hypothesis of the round-trip theorem, discharged for these concrete
values. -/

def natToDigitsRev : Nat → Nat → List Char
  | 0, _ => []
  | fuel+1, n =>
    if n = 0 then []
    else Char.ofNat (48 + n % 10) :: natToDigitsRev fuel (n / 10)

def natToString (n : Nat) : String :=
  if n = 0 then "0" else String.mk (natToDigitsRev 20 n).reverse

def dateToJson (t : Int) : String :=
  match t with
  | .ofNat n => natToString n
  | .negSucc m => "-" ++ natToString (m + 1)

def digitsToNat : List Char → Nat → Nat
  | [], acc => acc
  | c :: rest, acc => digitsToNat rest (acc * 10 + (c.toNat - 48))

def jsonToDate (s : String) : Int :=
  match s.toList with
  | '-' :: rest => - Int.ofNat (digitsToNat rest 0)
  | l => Int.ofNat (digitsToNat l 0)

/-- The invariant that no persisted session is empty (spec §3): every
session in the array has at least one message. -/

def NoEmptySessions (st : ProviderState) : Prop :=
  ∀ s ∈ st.sessions, s.messages ≠ []

/-- C1: splitting an SSE frame across two raw chunks must not change the
decoded deltas.  The decoders of `handleStreamingResponse` and
`queryPerplexityAPIStream` keep no carry-over buffer: delivered whole, the
frame for delta `"hi"` yields that delta; split at byte offset 10, both
decoders emit nothing (the partial payload fails `JSON.parse` and is
dropped, and the remainder of the frame lacks the `data: ` tag). -/
theorem c1_split_frame_loses_delta :
    (chatHandleStream canonParse [c1Frame]).emitted = [('h' :: 'i' :: [])] ∧
    (chatHandleStream canonParse
        [c1Frame.take 10, c1Frame.drop 10]).emitted = [] ∧
    (extHandleStream canonParse [c1Frame]).emitted = [('h' :: 'i' :: [])] ∧
    (extHandleStream canonParse
        [c1Frame.take 10, c1Frame.drop 10]).emitted = [] ∧
    c1Frame.take 10 ++ c1Frame.drop 10 = c1Frame := by
  refine ⟨by decide, by decide, by decide, by decide, by decide⟩

lemma beginsWith_append (l r : List Char) : beginsWith l (l ++ r) = true := by
  induction l with
  | nil => rfl
  | cons a as ih => simpa [beginsWith] using ih

lemma dropWhile_head_false {f : Char → Bool} {a : Char} {l : List Char}
    (h : List.dropWhile f (a :: l) = a :: l) : f a = false := by
  rw [List.dropWhile_eq_self_iff] at h
  simpa using h (by simp)

lemma trimChars_eq_self {p : List Char}
    (hl : p.dropWhile isWs = p) (hr : p.reverse.dropWhile isWs = p.reverse) :
    trimChars p = p := by
  unfold trimChars
  rw [hl, hr, List.reverse_reverse]

lemma dataTag_eq : dataTag = 'd' :: 'a' :: 't' :: 'a' :: ':' :: ' ' :: [] := rfl

lemma splitOnNl_ne_nil (l : List Char) : splitOnNl l ≠ [] := by
  cases l with
  | nil => simp [splitOnNl]
  | cons c rest =>
    cases h : splitOnNl rest with
    | nil => simp [splitOnNl, h]
    | cons a as => by_cases hc : c = '\n' <;> simp [splitOnNl, h, hc]

lemma splitOnNl_cons_nl (r : List Char) :
    splitOnNl ('\n' :: r) = [] :: splitOnNl r := by
  simp only [splitOnNl]
  cases h : splitOnNl r with
  | nil => exact absurd h (splitOnNl_ne_nil r)
  | cons a as => simp

lemma splitOnNl_append_nl {l : List Char} (h : '\n' ∉ l) (r : List Char) :
    splitOnNl (l ++ '\n' :: r) = l :: splitOnNl r := by
  induction l with
  | nil => simpa using splitOnNl_cons_nl r
  | cons a as ih =>
    have ha : a ≠ '\n' := fun e => h (e ▸ List.mem_cons_self a as)
    have has : '\n' ∉ as := fun m => h (List.mem_cons_of_mem _ m)
    rw [List.cons_append]
    rw [show splitOnNl (a :: (as ++ '\n' :: r)) =
          match splitOnNl (as ++ '\n' :: r) with
          | [] => [[]]
          | l :: ls => if a = '\n' then [] :: l :: ls else (a :: l) :: ls
        from rfl]
    rw [ih has]
    simp [ha]

lemma trimChars_dataTag {p : List Char} (hne : p ≠ [])
    (hr : p.reverse.dropWhile isWs = p.reverse) :
    trimChars (dataTag ++ p) = dataTag ++ p := by
  have hld : (dataTag ++ p).dropWhile isWs = dataTag ++ p := by
    rw [dataTag_eq]
    simp only [List.cons_append]
    rw [List.dropWhile_cons_of_neg (by decide)]
  have hrev : (dataTag ++ p).reverse.dropWhile isWs = (dataTag ++ p).reverse := by
    rw [List.reverse_append]
    cases hp : p.reverse with
    | nil => exact absurd (by simpa using congrArg List.reverse hp) hne
    | cons c t =>
      have hc : isWs c = false := dropWhile_head_false (hp ▸ hr)
      simp only [List.cons_append]
      rw [List.dropWhile_cons_of_neg (by simp [hc])]
  unfold trimChars
  rw [hld, hrev, List.reverse_reverse]

lemma drop6_dataTag (p : List Char) : (dataTag ++ p).drop 6 = p := rfl

lemma dataTag_append_ne_nil (p : List Char) : dataTag ++ p ≠ [] := by
  rw [dataTag_eq]; simp

lemma dataTag_ne_nil : dataTag ≠ [] := by rw [dataTag_eq]; simp

lemma trimChars_nil : trimChars [] = [] := rfl

lemma chat_lines_blank (parse : List Char → Option FrameJson) (st : DecState) :
    chatProcessLines parse [([] : List Char)] st = st := rfl

lemma ext_lines_blank (parse : List Char → Option FrameJson) (st : DecState) :
    extProcessLines parse [([] : List Char)] st = st := rfl

lemma payloadSane_core {p : List Char} (h : payloadSane p) : payloadCore p :=
  ⟨h.1, h.2.1, h.2.2.1, h.2.2.2.1, h.2.2.2.2.1⟩

lemma payloadSane_nodone {p : List Char} (h : payloadSane p) :
    containsSeq doneTok (dataTag ++ p) = false := h.2.2.2.2.2

lemma chat_chunk_frame (parse : List Char → Option FrameJson) {p : List Char}
    (hs : payloadCore p) (st : DecState) :
    chatProcessLines parse (splitOnNl (frameChunk p)) st =
      match parse p with
      | some ⟨some c⟩ =>
        if c = [] then { st with parseCalls := st.parseCalls ++ [p] }
        else { st with fullResponse := st.fullResponse ++ c,
                       emitted := st.emitted ++ [c],
                       parseCalls := st.parseCalls ++ [p] }
      | _ => { st with parseCalls := st.parseCalls ++ [p] } := by
  obtain ⟨hnl, hne, hl, hr, hdone⟩ := hs
  have hnl' : '\n' ∉ dataTag ++ p := by
    rw [dataTag_eq]
    intro hmem
    rcases List.mem_append.mp hmem with hmem | hmem
    · simp at hmem
    · exact hnl hmem
  have hsplit : splitOnNl (frameChunk p) = [dataTag ++ p, []] := by
    have : frameChunk p = (dataTag ++ p) ++ '\n' :: [] := by
      simp [frameChunk, List.append_assoc]
    rw [this, splitOnNl_append_nl hnl']
    rfl
  have h1 := trimChars_dataTag hne hr
  have h2 := trimChars_eq_self hl hr
  rw [hsplit]
  cases hp : parse p with
  | none =>
    simp [chatProcessLines, h1, h2, dataTag_append_ne_nil, dataTag_ne_nil, beginsWith_append,
          drop6_dataTag, hdone, hp, trimChars_nil]
  | some j =>
    cases j with
    | mk content =>
      cases content with
      | none =>
        simp [chatProcessLines, h1, h2, dataTag_append_ne_nil, dataTag_ne_nil,
              beginsWith_append, drop6_dataTag, hdone, hp, trimChars_nil]
      | some c =>
        by_cases hc : c = []
        · subst hc
          simp [chatProcessLines, h1, h2, dataTag_append_ne_nil, dataTag_ne_nil,
                beginsWith_append, drop6_dataTag, hdone, hp, trimChars_nil]
        · simp [chatProcessLines, h1, h2, dataTag_append_ne_nil, dataTag_ne_nil,
                beginsWith_append, drop6_dataTag, hdone, hp, hc, trimChars_nil]

lemma ext_chunk_frame (parse : List Char → Option FrameJson) {p : List Char}
    (hs : payloadCore p)
    (hcont : containsSeq doneTok (dataTag ++ p) = false) (st : DecState) :
    extProcessLines parse (splitOnNl (frameChunk p)) st =
      match parse p with
      | some ⟨some c⟩ =>
        if c = [] then { st with parseCalls := st.parseCalls ++ [p] }
        else { st with emitted := st.emitted ++ [c],
                       parseCalls := st.parseCalls ++ [p] }
      | _ => { st with parseCalls := st.parseCalls ++ [p] } := by
  obtain ⟨hnl, hne, hl, hr, hdone⟩ := hs
  have hnl' : '\n' ∉ dataTag ++ p := by
    rw [dataTag_eq]
    intro hmem
    rcases List.mem_append.mp hmem with hmem | hmem
    · simp at hmem
    · exact hnl hmem
  have hsplit : splitOnNl (frameChunk p) = [dataTag ++ p, []] := by
    have : frameChunk p = (dataTag ++ p) ++ '\n' :: [] := by
      simp [frameChunk, List.append_assoc]
    rw [this, splitOnNl_append_nl hnl']
    rfl
  have h2 := trimChars_eq_self hl hr
  have hbnil : beginsWith dataTag [] = false := rfl
  rw [hsplit]
  cases hp : parse p with
  | none =>
    simp [extProcessLines, h2, beginsWith_append, hcont, drop6_dataTag,
          hne, hp, trimChars_nil, hbnil]
  | some j =>
    cases j with
    | mk content =>
      cases content with
      | none =>
        simp [extProcessLines, h2, beginsWith_append, hcont, drop6_dataTag,
              hne, hp, trimChars_nil, hbnil]
      | some c =>
        by_cases hc : c = []
        · subst hc
          simp [extProcessLines, h2, beginsWith_append, hcont, drop6_dataTag,
                hne, hp, trimChars_nil, hbnil]
        · simp [extProcessLines, h2, beginsWith_append, hcont, drop6_dataTag,
                hne, hp, hc, trimChars_nil, hbnil]

lemma chat_chunk_done (parse : List Char → Option FrameJson) (st : DecState) :
    chatProcessLines parse (splitOnNl (frameChunk doneTok)) st = st := rfl

lemma ext_chunk_done (parse : List Char → Option FrameJson) (st : DecState) :
    extProcessLines parse (splitOnNl (frameChunk doneTok)) st = st := rfl

lemma chat_feed (parse : List Char → Option FrameJson) (specs : List FrameSpec)
    (H : ∀ s ∈ specs, s.Ok parse) (st : DecState) :
    specs.foldl (fun acc s => chatProcessLines parse (splitOnNl s.chunk) acc) st =
      { fullResponse := st.fullResponse ++ (specs.filterMap FrameSpec.delta).flatten,
        emitted := st.emitted ++ specs.filterMap FrameSpec.delta,
        parseCalls := st.parseCalls ++ specs.filterMap FrameSpec.payload } := by
  induction specs generalizing st with
  | nil => simp
  | cons s rest ih =>
    have Hrest : ∀ x ∈ rest, x.Ok parse := fun x hx => H x (List.mem_cons_of_mem _ hx)
    cases s with
    | stop =>
      rw [List.foldl_cons, show FrameSpec.chunk .stop = frameChunk doneTok from rfl,
          chat_chunk_done, ih Hrest]
      simp [FrameSpec.delta, FrameSpec.payload]
    | good p c =>
      obtain ⟨hsane, hp, hc⟩ := H (.good p c) (List.mem_cons_self _ rest)
      rw [List.foldl_cons, show FrameSpec.chunk (.good p c) = frameChunk p from rfl,
          chat_chunk_frame parse hsane st, hp]
      simp only [if_neg hc]
      rw [ih Hrest]
      simp [FrameSpec.delta, FrameSpec.payload, List.append_assoc]
    | bad p =>
      obtain ⟨hsane, hp⟩ := H (.bad p) (List.mem_cons_self _ rest)
      rw [List.foldl_cons, show FrameSpec.chunk (.bad p) = frameChunk p from rfl,
          chat_chunk_frame parse hsane st, hp]
      rw [ih Hrest]
      simp [FrameSpec.delta, FrameSpec.payload, List.append_assoc]

lemma ext_feed (parse : List Char → Option FrameJson) (specs : List FrameSpec)
    (H : ∀ s ∈ specs, s.Ok parse) (Hd : ∀ s ∈ specs, s.NoDoneSub) (st : DecState) :
    specs.foldl (fun acc s => extProcessLines parse (splitOnNl s.chunk) acc) st =
      { fullResponse := st.fullResponse,
        emitted := st.emitted ++ specs.filterMap FrameSpec.delta,
        parseCalls := st.parseCalls ++ specs.filterMap FrameSpec.payload } := by
  induction specs generalizing st with
  | nil => simp
  | cons s rest ih =>
    have Hrest : ∀ x ∈ rest, x.Ok parse := fun x hx => H x (List.mem_cons_of_mem _ hx)
    have Hdrest : ∀ x ∈ rest, x.NoDoneSub := fun x hx => Hd x (List.mem_cons_of_mem _ hx)
    cases s with
    | stop =>
      rw [List.foldl_cons, show FrameSpec.chunk .stop = frameChunk doneTok from rfl,
          ext_chunk_done, ih Hrest Hdrest]
      simp [FrameSpec.delta, FrameSpec.payload]
    | good p c =>
      obtain ⟨hsane, hp, hc⟩ := H (.good p c) (List.mem_cons_self _ rest)
      have hcont := Hd (.good p c) (List.mem_cons_self _ rest)
      rw [List.foldl_cons, show FrameSpec.chunk (.good p c) = frameChunk p from rfl,
          ext_chunk_frame parse hsane hcont st, hp]
      simp only [if_neg hc]
      rw [ih Hrest Hdrest]
      simp [FrameSpec.delta, FrameSpec.payload, List.append_assoc]
    | bad p =>
      obtain ⟨hsane, hp⟩ := H (.bad p) (List.mem_cons_self _ rest)
      have hcont := Hd (.bad p) (List.mem_cons_self _ rest)
      rw [List.foldl_cons, show FrameSpec.chunk (.bad p) = frameChunk p from rfl,
          ext_chunk_frame parse hsane hcont st, hp]
      rw [ih Hrest Hdrest]
      simp [FrameSpec.delta, FrameSpec.payload, List.append_assoc]

/-- C2: a single well-formed frame whose `choices[0].delta.content` is the
present-but-empty string parses successfully, yet neither decoder emits a
delta for it: "exactly N deltas for N frames with a non-absent string
delta" fails at this frame (0 deltas are emitted, not 1). -/
theorem c2_counterexample_empty_string_delta :
    canonParse (mkFrame []) = some ⟨some []⟩ ∧
    (chatHandleStream canonParse [frameChunk (mkFrame [])]).emitted = [] ∧
    (extHandleStream canonParse [frameChunk (mkFrame [])]).emitted = [] := by
  refine ⟨by decide, by decide, by decide⟩

/-- C2 (amended: well-formed frames carry a non-empty string delta): for
any interleaving of well-formed frames, malformed-JSON frames, and `[DONE]`
markers, each delivered whole, the chatProvider decoder emits exactly the
well-formed deltas in arrival order — no malformed frame aborts decoding and
the `[DONE]` payload is never handed to `JSON.parse`.  The extension.ts
decoder guarantees the same provided no frame line contains `[DONE]` as a
substring: its `!line.includes("[DONE]")` guard otherwise drops the whole
frame, as the final two conjuncts show on the well-formed frame whose delta
content is the string `"[DONE]"` — the chatProvider decoder emits that
delta, the extension.ts decoder emits nothing. -/
theorem c2_interleaved_frames_decoded
    (parse : List Char → Option FrameJson) (specs : List FrameSpec)
    (H : ∀ s ∈ specs, s.Ok parse) :
    (chatHandleStream parse (specs.map FrameSpec.chunk)).emitted =
        specs.filterMap FrameSpec.delta ∧
    doneTok ∉ (chatHandleStream parse (specs.map FrameSpec.chunk)).parseCalls ∧
    ((∀ s ∈ specs, s.NoDoneSub) →
      (extHandleStream parse (specs.map FrameSpec.chunk)).emitted =
          specs.filterMap FrameSpec.delta ∧
      doneTok ∉ (extHandleStream parse (specs.map FrameSpec.chunk)).parseCalls) ∧
    (chatHandleStream canonParse [frameChunk (mkFrame doneTok)]).emitted =
        [doneTok] ∧
    (extHandleStream canonParse [frameChunk (mkFrame doneTok)]).emitted = [] := by
  have hpay : ∀ q ∈ specs.filterMap FrameSpec.payload, q ≠ doneTok := by
    intro q hq
    obtain ⟨s, hs, hqs⟩ := List.mem_filterMap.mp hq
    cases s with
    | good p c =>
      obtain ⟨⟨-, -, -, -, hd⟩, -, -⟩ := H _ hs
      cases hqs
      exact hd
    | bad p =>
      obtain ⟨⟨-, -, -, -, hd⟩, -⟩ := H _ hs
      cases hqs
      exact hd
    | stop => simp [FrameSpec.payload] at hqs
  have hchat : chatHandleStream parse (specs.map FrameSpec.chunk) =
      { fullResponse := (specs.filterMap FrameSpec.delta).flatten,
        emitted := specs.filterMap FrameSpec.delta,
        parseCalls := specs.filterMap FrameSpec.payload } := by
    unfold chatHandleStream
    rw [List.foldl_map]
    simpa [DecState.init] using chat_feed parse specs H DecState.init
  refine ⟨by rw [hchat], ?_, ?_, by decide, by decide⟩
  · rw [hchat]
    exact fun hmem => hpay _ hmem rfl
  · intro Hd
    have hext : extHandleStream parse (specs.map FrameSpec.chunk) =
        { fullResponse := [],
          emitted := specs.filterMap FrameSpec.delta,
          parseCalls := specs.filterMap FrameSpec.payload } := by
      unfold extHandleStream
      rw [List.foldl_map]
      simpa [DecState.init] using ext_feed parse specs H Hd DecState.init
    refine ⟨by rw [hext], ?_⟩
    rw [hext]
    exact fun hmem => hpay _ hmem rfl

theorem c2_interleaved_frames_decoded_witness :
    (chatHandleStream canonParse (c2Specs.map FrameSpec.chunk)).emitted =
        c2Specs.filterMap FrameSpec.delta ∧
    doneTok ∉ (chatHandleStream canonParse (c2Specs.map FrameSpec.chunk)).parseCalls ∧
    (extHandleStream canonParse (c2Specs.map FrameSpec.chunk)).emitted =
        c2Specs.filterMap FrameSpec.delta ∧
    doneTok ∉ (extHandleStream canonParse (c2Specs.map FrameSpec.chunk)).parseCalls ∧
    (chatHandleStream canonParse [frameChunk (mkFrame doneTok)]).emitted =
        [doneTok] ∧
    (extHandleStream canonParse [frameChunk (mkFrame doneTok)]).emitted = [] :=
  have h := c2_interleaved_frames_decoded canonParse c2Specs (by decide)
  ⟨h.1, h.2.1, (h.2.2.1 (by decide)).1, (h.2.2.1 (by decide)).2,
    h.2.2.2.1, h.2.2.2.2⟩


/-- C10: a well-formed frame is emitted only when its string delta is
truthy: with delta content `c`, both decoders emit `[c]` and accumulate `c`
exactly when `c` is non-empty, and emit nothing (response unchanged) when
`c` is the empty string. -/
theorem c10_delta_emitted_iff_truthy
    (parse : List Char → Option FrameJson) (p c : List Char)
    (hs : payloadSane p) (hp : parse p = some ⟨some c⟩) :
    (chatHandleStream parse [frameChunk p]).emitted =
        (if c = [] then [] else [c]) ∧
    (chatHandleStream parse [frameChunk p]).fullResponse =
        (if c = [] then [] else c) ∧
    (extHandleStream parse [frameChunk p]).emitted =
        (if c = [] then [] else [c]) := by
  unfold chatHandleStream extHandleStream
  simp only [List.foldl_cons, List.foldl_nil]
  rw [chat_chunk_frame parse (payloadSane_core hs),
      ext_chunk_frame parse (payloadSane_core hs) (payloadSane_nodone hs), hp]
  by_cases hc : c = [] <;> simp [hc, DecState.init]

theorem c10_delta_emitted_iff_truthy_witness :
    (chatHandleStream canonParse [frameChunk (mkFrame [])]).emitted =
        (if ([] : List Char) = [] then [] else [[]]) ∧
    (chatHandleStream canonParse [frameChunk (mkFrame [])]).fullResponse =
        (if ([] : List Char) = [] then [] else []) ∧
    (extHandleStream canonParse [frameChunk (mkFrame [])]).emitted =
        (if ([] : List Char) = [] then [] else [[]]) :=
  c10_delta_emitted_iff_truthy canonParse (mkFrame []) [] (by decide) (by decide)

/-- C7: appending a user message to a store with no sessions materializes
exactly one session at the front: the list grows from length 0 to 1 and the
new session's title is the text itself when it has at most 50 characters,
and its first 50 characters followed by the ellipsis `"..."` when longer. -/
theorem c7_first_message_materializes_session
    (cur : Option String) (ac : Option Nat) (fid : String) (now : Int) (t : String) :
    (ProviderState.mk [] cur ac).sessions.length = 0 ∧
    (addUserMessage fid now t ⟨[], cur, ac⟩).sessions =
      [⟨fid, (if t.length > 50 then t.take 50 ++ "..." else t),
        [⟨Role.user, t, now⟩], now⟩] ∧
    (addUserMessage fid now t ⟨[], cur, ac⟩).sessions.length = 1 := by
  refine ⟨rfl, ?_, ?_⟩ <;>
    cases cur <;>
      simp [addUserMessage, ensureCurrentSession, titleFor, pushUserMessage]

/-- C9: with no attached context the prompt is the user text unchanged;
with attached context it is `"Context:\n"`, the items rendered as labeled
fenced blocks (file items: name, language tag, content; selection items:
source file name, line range, content) joined by blank lines, then
`"\n\nUser Question: "` and the user text. -/
theorem c9_render_context (t : String) :
    renderContext [] t = t ∧
    (∀ (i : CtxItem) (rest : List CtxItem),
      renderContext (i :: rest) t =
        "Context:\n" ++ String.intercalate "\n\n" ((i :: rest).map blockOf) ++
          "\n\nUser Question: " ++ t) ∧
    (∀ name language content,
      blockOf (.file name language content) =
        "File: " ++ name ++ "\n```" ++ language ++ "\n" ++ content ++ "\n```") ∧
    (∀ fileName startLine endLine content,
      blockOf (.selection fileName startLine endLine content) =
        "Selected code from " ++ fileName ++ " (lines " ++ toString startLine ++
          "-" ++ toString endLine ++ "):\n```\n" ++ content ++ "\n```") := by
  refine ⟨rfl, fun i rest => ?_, fun _ _ _ => rfl, fun _ _ _ _ => rfl⟩
  simp [renderContext]

/-- C3 counterexample: with a request in flight (`_abortController` set,
token 0), a second submit of `"hi"` is not a no-op: `handleUserMessage`
aborts the in-flight controller and issues a new request with the submitted
text. -/
theorem c3_counterexample_second_submit_not_noop :
    (handleUserMessage (some "k") (.success "ok") [] 1 "f1" "f2" 10 11 "hi"
        ⟨[], none, some 0⟩).aborted = [0] ∧
    (handleUserMessage (some "k") (.success "ok") [] 1 "f1" "f2" 10 11 "hi"
        ⟨[], none, some 0⟩).sentPrompt = some "hi" ∧
    ¬((handleUserMessage (some "k") (.success "ok") [] 1 "f1" "f2" 10 11 "hi"
        ⟨[], none, some 0⟩).aborted = [] ∧
      (handleUserMessage (some "k") (.success "ok") [] 1 "f1" "f2" 10 11 "hi"
        ⟨[], none, some 0⟩).sentPrompt = none) := by
  refine ⟨by decide, by decide, by decide⟩

/-- C3 (amended): while a previous request is in flight, a second submit
cancels it and starts a new request (last-request-wins, not a rejection);
submit on empty or whitespace-only input is a no-op. -/
theorem c3_second_submit_cancels_and_replaces
    (st : ProviderState) (tok : Nat) (key : String) (outcome : QueryOutcome)
    (ctx : List CtxItem) (newToken : Nat) (fidU fidA : String)
    (nowU nowA : Int) (message : String) :
    (st.abortController = some tok → isBlank message = false →
      (handleUserMessage (some key) outcome ctx newToken fidU fidA nowU nowA
          message st).aborted = [tok] ∧
      (handleUserMessage (some key) outcome ctx newToken fidU fidA nowU nowA
          message st).sentPrompt = some (renderContext ctx message)) ∧
    (isBlank message = true →
      handleUserMessage (some key) outcome ctx newToken fidU fidA nowU nowA
          message st = ⟨st, [], [], none⟩) := by
  constructor
  · intro htok hmsg
    unfold handleUserMessage
    rw [if_neg (by simp [hmsg]), htok]
    cases outcome <;> exact ⟨rfl, rfl⟩
  · intro hmsg
    unfold handleUserMessage
    rw [if_pos (by simp [hmsg])]

theorem c3_second_submit_cancels_and_replaces_witness :
    ((handleUserMessage (some "k") (.failure "boom") [] 1 "f1" "f2" 10 11 "hi"
        ⟨[], none, some 0⟩).aborted = [0] ∧
      (handleUserMessage (some "k") (.failure "boom") [] 1 "f1" "f2" 10 11 "hi"
        ⟨[], none, some 0⟩).sentPrompt = some (renderContext [] "hi")) ∧
    handleUserMessage (some "k") (.failure "boom") [] 1 "f1" "f2" 10 11 " "
        ⟨[], none, some 0⟩ = ⟨⟨[], none, some 0⟩, [], [], none⟩ :=
  ⟨(c3_second_submit_cancels_and_replaces ⟨[], none, some 0⟩ 0 "k"
      (.failure "boom") [] 1 "f1" "f2" 10 11 "hi").1 rfl (by decide),
    (c3_second_submit_cancels_and_replaces ⟨[], none, some 0⟩ 0 "k"
      (.failure "boom") [] 1 "f1" "f2" 10 11 " ").2 (by decide)⟩

/-- C4: a turn that fails — missing credential, transport failure, or user
cancellation — leaves the session store exactly as it was (no user and no
assistant message is appended, the current session id is unchanged), and
posts exactly one error event for the failure cases and exactly one
stopped event (and no error) for cancellation. -/
theorem c4_failed_turn_leaves_history_untouched
    (outcome : QueryOutcome) (ctx : List CtxItem) (newToken : Nat)
    (fidU fidA : String) (nowU nowA : Int) (message : String)
    (st : ProviderState) (hmsg : isBlank message = false) :
    ((handleUserMessage none outcome ctx newToken fidU fidA nowU nowA
        message st).state.sessions = st.sessions ∧
      (handleUserMessage none outcome ctx newToken fidU fidA nowU nowA
        message st).state.currentSessionId = st.currentSessionId ∧
      countErrors (handleUserMessage none outcome ctx newToken fidU fidA nowU
        nowA message st).events = 1 ∧
      countStopped (handleUserMessage none outcome ctx newToken fidU fidA nowU
        nowA message st).events = 0) ∧
    (∀ key,
      (handleUserMessage (some key) .abortError ctx newToken fidU fidA nowU
        nowA message st).state.sessions = st.sessions ∧
      (handleUserMessage (some key) .abortError ctx newToken fidU fidA nowU
        nowA message st).state.currentSessionId = st.currentSessionId ∧
      countErrors (handleUserMessage (some key) .abortError ctx newToken fidU
        fidA nowU nowA message st).events = 0 ∧
      countStopped (handleUserMessage (some key) .abortError ctx newToken fidU
        fidA nowU nowA message st).events = 1) ∧
    (∀ key m,
      (handleUserMessage (some key) (.failure m) ctx newToken fidU fidA nowU
        nowA message st).state.sessions = st.sessions ∧
      (handleUserMessage (some key) (.failure m) ctx newToken fidU fidA nowU
        nowA message st).state.currentSessionId = st.currentSessionId ∧
      countErrors (handleUserMessage (some key) (.failure m) ctx newToken fidU
        fidA nowU nowA message st).events = 1 ∧
      countStopped (handleUserMessage (some key) (.failure m) ctx newToken
        fidU fidA nowU nowA message st).events = 0) := by
  have h : ¬(isBlank message = true) := by simp [hmsg]
  unfold handleUserMessage
  simp only [if_neg h]
  simp [countErrors, countStopped]

theorem c4_failed_turn_leaves_history_untouched_witness :
    ((handleUserMessage none (.success "ok") [] 1 "f1" "f2" 10 11 "q"
        ⟨[], none, none⟩).state.sessions = ([] : List ChatSession) ∧
      (handleUserMessage none (.success "ok") [] 1 "f1" "f2" 10 11 "q"
        ⟨[], none, none⟩).state.currentSessionId = none ∧
      countErrors (handleUserMessage none (.success "ok") [] 1 "f1" "f2" 10 11
        "q" ⟨[], none, none⟩).events = 1 ∧
      countStopped (handleUserMessage none (.success "ok") [] 1 "f1" "f2" 10 11
        "q" ⟨[], none, none⟩).events = 0) ∧
    (∀ key,
      (handleUserMessage (some key) .abortError [] 1 "f1" "f2" 10 11 "q"
        ⟨[], none, none⟩).state.sessions = ([] : List ChatSession) ∧
      (handleUserMessage (some key) .abortError [] 1 "f1" "f2" 10 11 "q"
        ⟨[], none, none⟩).state.currentSessionId = none ∧
      countErrors (handleUserMessage (some key) .abortError [] 1 "f1" "f2" 10
        11 "q" ⟨[], none, none⟩).events = 0 ∧
      countStopped (handleUserMessage (some key) .abortError [] 1 "f1" "f2" 10
        11 "q" ⟨[], none, none⟩).events = 1) ∧
    (∀ key m,
      (handleUserMessage (some key) (.failure m) [] 1 "f1" "f2" 10 11 "q"
        ⟨[], none, none⟩).state.sessions = ([] : List ChatSession) ∧
      (handleUserMessage (some key) (.failure m) [] 1 "f1" "f2" 10 11 "q"
        ⟨[], none, none⟩).state.currentSessionId = none ∧
      countErrors (handleUserMessage (some key) (.failure m) [] 1 "f1" "f2" 10
        11 "q" ⟨[], none, none⟩).events = 1 ∧
      countStopped (handleUserMessage (some key) (.failure m) [] 1 "f1" "f2"
        10 11 "q" ⟨[], none, none⟩).events = 0) :=
  c4_failed_turn_leaves_history_untouched (.success "ok") [] 1 "f1" "f2" 10 11
    "q" ⟨[], none, none⟩ (by decide)

lemma pushUserMessage_messages (content : String) (now : Int) (s : ChatSession) :
    (pushUserMessage content now s).messages =
      s.messages ++ [⟨Role.user, content, now⟩] := by
  unfold pushUserMessage
  split <;> rfl

lemma pushUserMessage_id (content : String) (now : Int) (s : ChatSession) :
    (pushUserMessage content now s).id = s.id := by
  unfold pushUserMessage
  split <;> rfl

lemma ensureCurrentSession_sessions (fid : String) (st : ProviderState) :
    (ensureCurrentSession fid st).sessions = st.sessions := by
  unfold ensureCurrentSession
  cases st.currentSessionId with
  | none => rfl
  | some cur => by_cases h : (st.sessions.find? (fun s => s.id == cur)).isSome <;> simp [h]

lemma mem_updateFirst {p : α → Bool} {f : α → α} {l : List α} {y : α}
    (hy : y ∈ updateFirst p f l) : y ∈ l ∨ ∃ x ∈ l, y = f x := by
  induction l with
  | nil => simp [updateFirst] at hy
  | cons a t ih =>
    unfold updateFirst at hy
    by_cases ha : p a
    · rw [if_pos ha] at hy
      rcases List.mem_cons.mp hy with h | h
      · exact Or.inr ⟨a, List.mem_cons_self a t, h⟩
      · exact Or.inl (List.mem_cons_of_mem _ h)
    · rw [if_neg ha] at hy
      rcases List.mem_cons.mp hy with h | h
      · exact Or.inl (h ▸ List.mem_cons_self a t)
      · rcases ih h with h' | ⟨x, hx, hfx⟩
        · exact Or.inl (List.mem_cons_of_mem _ h')
        · exact Or.inr ⟨x, List.mem_cons_of_mem _ hx, hfx⟩

/-- C8: triggering a new chat only assigns a fresh current-session id — the
session list is untouched, so a new-session trigger followed by no message
leaves the listed sessions unchanged — and every session-store operation
preserves the invariant that no listed session has zero messages. -/
theorem c8_new_chat_lazy_no_empty_sessions
    (fid : String) (st : ProviderState) (h : NoEmptySessions st) :
    startNewChat fid st = { st with currentSessionId := some fid } ∧
    (startNewChat fid st).sessions = st.sessions ∧
    NoEmptySessions (startNewChat fid st) ∧
    (∀ fid2 now t, NoEmptySessions (addUserMessage fid2 now t st)) ∧
    (∀ fid2 now t, NoEmptySessions (addAssistantMessage fid2 now t st)) ∧
    NoEmptySessions (clearHistory st) ∧
    (∀ sid, NoEmptySessions (selectSession sid st)) := by
  refine ⟨rfl, rfl, h, ?_, ?_, ?_, ?_⟩
  · intro fid2 now t s hs
    unfold addUserMessage at hs
    set st1 := ensureCurrentSession fid2 st with hst1
    have hsess : st1.sessions = st.sessions := ensureCurrentSession_sessions fid2 st
    set cur := st1.currentSessionId.getD "" with hcur
    dsimp only at hs
    rcases hfind : st1.sessions.find? (fun s => s.id == cur) with - | s0
    · rw [hfind] at hs
      dsimp only at hs
      rcases List.mem_cons.mp hs with h' | h'
      · subst h'
        simp [pushUserMessage_messages]
      · exact h s (hsess ▸ h')
    · rw [hfind] at hs
      dsimp only at hs
      rcases mem_updateFirst hs with h' | ⟨x, hx, hfx⟩
      · exact h s (hsess ▸ h')
      · subst hfx
        simp [pushUserMessage_messages]
  · intro fid2 now t s hs
    unfold addAssistantMessage at hs
    set st1 := ensureCurrentSession fid2 st with hst1
    have hsess : st1.sessions = st.sessions := ensureCurrentSession_sessions fid2 st
    set cur := st1.currentSessionId.getD "" with hcur
    by_cases hfind : (st1.sessions.find? (fun s => s.id == cur)).isSome
    · rw [if_pos hfind] at hs
      dsimp only at hs
      rcases mem_updateFirst hs with h' | ⟨x, hx, hfx⟩
      · exact h s (hsess ▸ h')
      · subst hfx
        simp
    · rw [if_neg hfind] at hs
      exact h s (hsess ▸ hs)
  · intro s hs
    simp [clearHistory] at hs
  · intro sid s hs
    unfold selectSession at hs
    by_cases hfind : (st.sessions.find? (fun s => s.id == sid)).isSome
    · rw [if_pos hfind] at hs
      exact h s hs
    · rw [if_neg hfind] at hs
      exact h s hs

theorem c8_new_chat_lazy_no_empty_sessions_witness :
    startNewChat "n1" ⟨[], none, none⟩ =
      { (⟨[], none, none⟩ : ProviderState) with currentSessionId := some "n1" } ∧
    (startNewChat "n1" ⟨[], none, none⟩).sessions = ([] : List ChatSession) ∧
    NoEmptySessions (startNewChat "n1" ⟨[], none, none⟩) ∧
    (∀ fid2 now t, NoEmptySessions (addUserMessage fid2 now t ⟨[], none, none⟩)) ∧
    (∀ fid2 now t, NoEmptySessions (addAssistantMessage fid2 now t ⟨[], none, none⟩)) ∧
    NoEmptySessions (clearHistory ⟨[], none, none⟩) ∧
    (∀ sid, NoEmptySessions (selectSession sid ⟨[], none, none⟩)) :=
  c8_new_chat_lazy_no_empty_sessions "n1" ⟨[], none, none⟩ (by simp [NoEmptySessions])

lemma find?_eq_some_split {p : α → Bool} {l : List α} {x : α}
    (h : l.find? p = some x) :
    ∃ l₁ l₂, l = l₁ ++ x :: l₂ ∧ (∀ y ∈ l₁, p y = false) ∧ p x = true := by
  induction l with
  | nil => simp at h
  | cons a t ih =>
    by_cases ha : p a = true
    · rw [List.find?_cons_of_pos _ ha] at h
      cases h
      exact ⟨[], t, rfl, by simp, ha⟩
    · rw [List.find?_cons_of_neg _ (by simpa using ha)] at h
      obtain ⟨l₁, l₂, hl, h1, h2⟩ := ih h
      refine ⟨a :: l₁, l₂, by rw [hl, List.cons_append], ?_, h2⟩
      intro y hy
      rcases List.mem_cons.mp hy with hy | hy
      · subst hy
        simpa using ha
      · exact h1 y hy

lemma find?_append_cons {p : α → Bool} {l₁ : List α}
    (h : ∀ y ∈ l₁, p y = false) {x : α} (hx : p x = true) (l₂ : List α) :
    (l₁ ++ x :: l₂).find? p = some x := by
  induction l₁ with
  | nil => simpa using List.find?_cons_of_pos _ hx
  | cons a t ih =>
    have ha := h a (List.mem_cons_self a t)
    rw [List.cons_append, List.find?_cons_of_neg _ (by simp [ha])]
    exact ih (fun y hy => h y (List.mem_cons_of_mem _ hy))

lemma updateFirst_append_cons {p : α → Bool} {f : α → α} {l₁ : List α}
    (h : ∀ y ∈ l₁, p y = false) {x : α} (hx : p x = true) (l₂ : List α) :
    updateFirst p f (l₁ ++ x :: l₂) = l₁ ++ f x :: l₂ := by
  induction l₁ with
  | nil => simp [updateFirst, hx]
  | cons a t ih =>
    have ha := h a (List.mem_cons_self a t)
    simp only [List.cons_append, updateFirst, ha, List.append_eq]
    rw [if_neg (by simp [ha]), ih (fun y hy => h y (List.mem_cons_of_mem _ hy))]

lemma renderContext_ne {ctx : List CtxItem} (hctx : ctx ≠ []) (message : String) :
    renderContext ctx message ≠ message := by
  unfold renderContext
  rw [if_pos (by cases ctx with
    | nil => exact absurd rfl hctx
    | cons a t => simp)]
  intro h
  have hl := congrArg String.length h
  rw [String.length_append, String.length_append, String.length_append] at hl
  have h9 : "Context:\n".length = 9 := by decide
  have h17 : "\n\nUser Question: ".length = 17 := by decide
  omega

lemma addUser_create (fidU : String) (nowU : Int) (umsg : String)
    (st : ProviderState)
    (hens : ensureCurrentSession fidU st = { st with currentSessionId := some fidU })
    (hfind : st.sessions.find? (fun s => s.id == fidU) = none) :
    addUserMessage fidU nowU umsg st =
      ProviderState.mk
        (ChatSession.mk fidU (titleFor umsg) [ChatMessage.mk Role.user umsg nowU] nowU
          :: st.sessions)
        (some fidU) st.abortController := by
  unfold addUserMessage
  rw [hens]
  dsimp only [Option.getD]
  rw [hfind]
  dsimp only
  simp [pushUserMessage]

lemma addUser_found (fidU : String) (nowU : Int) (umsg : String)
    (st : ProviderState) (cid : String) (l₁ l₂ : List ChatSession)
    (s0 : ChatSession)
    (hcur : st.currentSessionId = some cid)
    (hsess : st.sessions = l₁ ++ s0 :: l₂)
    (hl₁ : ∀ y ∈ l₁, (y.id == cid) = false)
    (hs0 : (s0.id == cid) = true) :
    addUserMessage fidU nowU umsg st =
      { st with sessions := l₁ ++ pushUserMessage umsg nowU s0 :: l₂ } := by
  have hfind : st.sessions.find? (fun s => s.id == cid) = some s0 := by
    rw [hsess]
    exact find?_append_cons hl₁ hs0 l₂
  have hens : ensureCurrentSession fidU st = st := by
    unfold ensureCurrentSession
    rw [hcur]
    dsimp only
    rw [hfind]
    rfl
  unfold addUserMessage
  rw [hens]
  dsimp only [Option.getD]
  rw [hcur]
  dsimp only
  rw [hfind]
  dsimp only
  rw [hsess, updateFirst_append_cons hl₁ hs0 l₂]

lemma addAssistant_found (fidA : String) (nowA : Int) (amsg : String)
    (st : ProviderState) (cid : String) (l₁ l₂ : List ChatSession)
    (s0 : ChatSession)
    (hcur : st.currentSessionId = some cid)
    (hsess : st.sessions = l₁ ++ s0 :: l₂)
    (hl₁ : ∀ y ∈ l₁, (y.id == cid) = false)
    (hs0 : (s0.id == cid) = true) :
    addAssistantMessage fidA nowA amsg st =
      { st with sessions := l₁ ++
          { s0 with messages :=
              s0.messages ++ [ChatMessage.mk Role.assistant amsg nowA] } :: l₂ } := by
  have hfind : st.sessions.find? (fun s => s.id == cid) = some s0 := by
    rw [hsess]
    exact find?_append_cons hl₁ hs0 l₂
  have hens : ensureCurrentSession fidA st = st := by
    unfold ensureCurrentSession
    rw [hcur]
    dsimp only
    rw [hfind]
    rfl
  unfold addAssistantMessage
  rw [hens]
  dsimp only [Option.getD]
  rw [hcur]
  dsimp only
  rw [if_pos (by rw [hfind]; rfl)]
  rw [hsess, updateFirst_append_cons hl₁ hs0 l₂]

lemma addUser_addAssistant_appends (fidU fidA : String) (nowU nowA : Int)
    (umsg amsg : String) (st : ProviderState)
    (hfresh : ∀ s ∈ st.sessions, s.id ≠ fidU) :
    ∃ sess ∈ (addAssistantMessage fidA nowA amsg
        (addUserMessage fidU nowU umsg st)).sessions,
      (addAssistantMessage fidA nowA amsg
          (addUserMessage fidU nowU umsg st)).currentSessionId = some sess.id ∧
      ∃ prev, sess.messages = prev ++
        [ChatMessage.mk Role.user umsg nowU,
         ChatMessage.mk Role.assistant amsg nowA] := by
  have hfindU : st.sessions.find? (fun s => s.id == fidU) = none :=
    List.find?_eq_none.mpr (fun x hx => by simp [hfresh x hx])
  have hcreate : ensureCurrentSession fidU st =
        { st with currentSessionId := some fidU } →
      ∃ sess ∈ (addAssistantMessage fidA nowA amsg
          (addUserMessage fidU nowU umsg st)).sessions,
        (addAssistantMessage fidA nowA amsg
            (addUserMessage fidU nowU umsg st)).currentSessionId = some sess.id ∧
        ∃ prev, sess.messages = prev ++
          [ChatMessage.mk Role.user umsg nowU,
           ChatMessage.mk Role.assistant amsg nowA] := by
    intro hens
    have hadd := addUser_create fidU nowU umsg st hens hfindU
    rw [hadd]
    have hass := addAssistant_found fidA nowA amsg
      (ProviderState.mk
        (ChatSession.mk fidU (titleFor umsg) [ChatMessage.mk Role.user umsg nowU] nowU
          :: st.sessions)
        (some fidU) st.abortController)
      fidU []
      st.sessions
      (ChatSession.mk fidU (titleFor umsg) [ChatMessage.mk Role.user umsg nowU] nowU)
      rfl rfl (by simp) (by simp)
    rw [hass]
    refine ⟨ChatSession.mk fidU (titleFor umsg)
        [ChatMessage.mk Role.user umsg nowU, ChatMessage.mk Role.assistant amsg nowA]
        nowU, ?_, rfl, [], rfl⟩
    simp
  rcases hcur : st.currentSessionId with - | c
  · exact hcreate (by unfold ensureCurrentSession; rw [hcur])
  · rcases hfindc : st.sessions.find? (fun s => s.id == c) with - | s0
    · refine hcreate ?_
      unfold ensureCurrentSession
      rw [hcur]
      dsimp only
      rw [hfindc]
      rfl
    · obtain ⟨l₁, l₂, hsess, hl₁, hs0⟩ := find?_eq_some_split hfindc
      have hadd := addUser_found fidU nowU umsg st c l₁ l₂ s0 hcur hsess hl₁ hs0
      rw [hadd]
      have hs0' : ((pushUserMessage umsg nowU s0).id == c) = true := by
        rw [pushUserMessage_id]
        exact hs0
      have hass := addAssistant_found fidA nowA amsg
        { st with sessions := l₁ ++ pushUserMessage umsg nowU s0 :: l₂ }
        c l₁ l₂ (pushUserMessage umsg nowU s0) hcur rfl hl₁ hs0'
      rw [hass]
      refine ⟨{ pushUserMessage umsg nowU s0 with
          messages := (pushUserMessage umsg nowU s0).messages ++
            [ChatMessage.mk Role.assistant amsg nowA] }, ?_, ?_, s0.messages, ?_⟩
      · simp
      · dsimp only
        rw [pushUserMessage_id]
        rw [show s0.id = c from by simpa using hs0]
        exact hcur
      · dsimp only
        rw [pushUserMessage_messages]
        simp

lemma handleUserMessage_success (key resp : String) (ctx : List CtxItem)
    (newToken : Nat) (fidU fidA : String) (nowU nowA : Int) (message : String)
    (st : ProviderState) (hmsg : isBlank message = false) :
    handleUserMessage (some key) (.success resp) ctx newToken fidU fidA nowU nowA
        message st =
      ⟨{ addAssistantMessage fidA nowA resp
            (addUserMessage fidU nowU message
              { st with abortController := some newToken })
          with abortController := none },
        [.showTyping, .hideTyping],
        (match st.abortController with | some t => [t] | none => []),
        some (renderContext ctx message)⟩ := by
  unfold handleUserMessage
  rw [if_neg (by simp [hmsg])]

/-- C5: a successfully completed turn with attached context appends the
original raw user text — not the context-augmented prompt — as the user
message and the assembled response as the assistant message of the current
session, while the prompt sent to the transport is the augmented rendering,
which differs from the raw text. -/
theorem c5_success_persists_raw_text
    (key resp : String) (ctx : List CtxItem) (newToken : Nat)
    (fidU fidA : String) (nowU nowA : Int) (message : String)
    (st : ProviderState) (hctx : ctx ≠ []) (hmsg : isBlank message = false)
    (hfresh : ∀ s ∈ st.sessions, s.id ≠ fidU) :
    (∃ sess ∈ (handleUserMessage (some key) (.success resp) ctx newToken fidU
        fidA nowU nowA message st).state.sessions,
      (handleUserMessage (some key) (.success resp) ctx newToken fidU fidA nowU
          nowA message st).state.currentSessionId = some sess.id ∧
      ∃ prev, sess.messages = prev ++
        [ChatMessage.mk Role.user message nowU,
         ChatMessage.mk Role.assistant resp nowA]) ∧
    (handleUserMessage (some key) (.success resp) ctx newToken fidU fidA nowU
        nowA message st).sentPrompt = some (renderContext ctx message) ∧
    renderContext ctx message ≠ message := by
  rw [handleUserMessage_success key resp ctx newToken fidU fidA nowU nowA
    message st hmsg]
  refine ⟨?_, rfl, renderContext_ne hctx message⟩
  have h := addUser_addAssistant_appends fidU fidA nowU nowA message resp
    { st with abortController := some newToken } (by simpa using hfresh)
  obtain ⟨sess, hmem, hcur, prev, hmsgs⟩ := h
  exact ⟨sess, by simpa using hmem, by simpa using hcur, prev, hmsgs⟩

theorem c5_success_persists_raw_text_witness :
    (∃ sess ∈ (handleUserMessage (some "k") (.success "It returns one.")
        [CtxItem.selection "foo.ts" 3 5 "return 1;"] 1 "f1" "f2" 10 11
        "explain this" ⟨[], none, none⟩).state.sessions,
      (handleUserMessage (some "k") (.success "It returns one.")
          [CtxItem.selection "foo.ts" 3 5 "return 1;"] 1 "f1" "f2" 10 11
          "explain this" ⟨[], none, none⟩).state.currentSessionId = some sess.id ∧
      ∃ prev, sess.messages = prev ++
        [ChatMessage.mk Role.user "explain this" 10,
         ChatMessage.mk Role.assistant "It returns one." 11]) ∧
    (handleUserMessage (some "k") (.success "It returns one.")
        [CtxItem.selection "foo.ts" 3 5 "return 1;"] 1 "f1" "f2" 10 11
        "explain this" ⟨[], none, none⟩).sentPrompt =
      some (renderContext [CtxItem.selection "foo.ts" 3 5 "return 1;"]
        "explain this") ∧
    renderContext [CtxItem.selection "foo.ts" 3 5 "return 1;"] "explain this" ≠
      "explain this" :=
  c5_success_persists_raw_text "k" "It returns one."
    [CtxItem.selection "foo.ts" 3 5 "return 1;"] 1 "f1" "f2" 10 11
    "explain this" ⟨[], none, none⟩ (by decide) (by decide) (by simp)

lemma rehydrate_serialize (iso : Int → String) (parseDate : String → Int)
    (msgs : List ChatMessage)
    (h : ∀ m ∈ msgs, parseDate (iso m.timestamp) = m.timestamp) :
    (msgs.map (serializeMessage iso)).map (rehydrateMessage parseDate) = msgs := by
  induction msgs with
  | nil => rfl
  | cons m t ih =>
    simp only [List.map_cons]
    rw [ih (fun x hx => h x (List.mem_cons_of_mem _ hx))]
    have hm := h m (List.mem_cons_self m t)
    cases m with
    | mk r c ts =>
      simp only [serializeMessage, rehydrateMessage] at hm ⊢
      rw [hm]

lemma load_save_sessions (iso : Int → String) (parseDate : String → Int)
    (S : List ChatSession)
    (h : ∀ s ∈ S, parseDate (iso s.createdAt) = s.createdAt ∧
      ∀ m ∈ s.messages, parseDate (iso m.timestamp) = m.timestamp) :
    loadChatHistory parseDate (saveChatHistory iso S) = S := by
  induction S with
  | nil => rfl
  | cons a t ih =>
    obtain ⟨ha1, ha2⟩ := h a (List.mem_cons_self a t)
    have hrest := ih (fun s hs => h s (List.mem_cons_of_mem a hs))
    unfold loadChatHistory saveChatHistory at hrest ⊢
    simp only [List.map_cons]
    rw [hrest]
    cases a with
    | mk idv title msgs createdAt =>
      simp only [serializeSession] at ha1 ha2 ⊢
      rw [rehydrate_serialize iso parseDate msgs ha2, ha1]

/-- C6: saving then loading a non-empty session list reproduces it exactly,
with `createdAt` and every per-message timestamp reconstructed as a time
value rather than left as the raw string the JSON boundary stored; the
hypothesis is the host guarantee that `new Date(d.toJSON())` recovers `d` at
millisecond precision for each timestamp occurring in the list. -/
theorem c6_save_load_round_trip (iso : Int → String) (parseDate : String → Int)
    (S : List ChatSession) (_hne : S ≠ [])
    (h : ∀ s ∈ S, parseDate (iso s.createdAt) = s.createdAt ∧
      ∀ m ∈ s.messages, parseDate (iso m.timestamp) = m.timestamp) :
    loadChatHistory parseDate (saveChatHistory iso S) = S :=
  load_save_sessions iso parseDate S h

theorem c6_save_load_round_trip_witness :
    loadChatHistory jsonToDate (saveChatHistory dateToJson
      [ChatSession.mk "s1" "hello"
        [ChatMessage.mk Role.user "hello" 1700000000000,
         ChatMessage.mk Role.assistant "hi there" 1700000000456]
        1699999999999]) =
      [ChatSession.mk "s1" "hello"
        [ChatMessage.mk Role.user "hello" 1700000000000,
         ChatMessage.mk Role.assistant "hi there" 1700000000456]
        1699999999999] :=
  c6_save_load_round_trip dateToJson jsonToDate _ (by decide) (by decide)
